import Mathlib

/-!
Shallow embedding of the Gurudatta Travels booking application (`src/app.py`)
and verification of its specification claims.

Modelling conventions:
* SQLAlchemy tables become Lean structures; the database is a record of lists,
  rows in insertion (primary-key) order.
* Python `float` prices are modelled as `ℚ` (exact arithmetic; the claims are
  about which values get multiplied and stored, not about rounding).
* Python `int` is `Int`, autoincrement primary keys are `Nat`.
* A Flask request handler becomes a function `DB → DB × HResult`; an unhandled
  Python exception (HTTP 500) is the `HResult.serverError` outcome and leaves
  the database unchanged, since every crash point in the source is reached
  before `db.session.commit()`.
* `flask_login`'s `@login_required` is the `loginRequired` wrapper over an
  `Option User` session; `current_user` is the wrapped `User`.
* `werkzeug.security.generate_password_hash` / `check_password_hash` (an
  external library) are modelled by `hashPassword` / `checkPasswordHash`:
  the stored credential is `method$salt$digest` and verification re-derives
  the digest of the candidate from the salt parsed out of the stored string,
  exactly werkzeug's contract.  The PBKDF2 digest itself is idealised as the
  injective identity encoding of the password, which captures the library
  guarantee `check(hash(p), q) = (q == p)` used by the application.
-/

/-- `class User(db.Model, UserMixin)` — app.py lines 34-39. -/
structure User where
  id : Nat
  username : String
  password : String
  role : String
deriving Repr, DecidableEq

/-- `class Destination(db.Model)` — app.py lines 41-48. -/
structure Destination where
  id : Nat
  name : String
  location : String
  description : String
  best_season : String
  is_active : Bool
deriving Repr, DecidableEq

/-- `class Package(db.Model)` — app.py lines 50-58. -/
structure Package where
  id : Nat
  name : String
  duration : String
  price : ℚ
  max_capacity : Int
  image_file : String
  dest_id : Nat
deriving Repr, DecidableEq

/-- `class Booking(db.Model)` — app.py lines 60-67.  `date_booked` is an
abstract timestamp tick. -/
structure Booking where
  id : Nat
  user_id : Nat
  package_id : Nat
  travelers : Int
  total_price : ℚ
  status : String
  date_booked : Nat
deriving Repr, DecidableEq

/-- The persistent store: the four tables of the schema. -/
structure DB where
  users : List User
  destinations : List Destination
  packages : List Package
  bookings : List Booking
deriving Repr, DecidableEq

def emptyDB : DB := ⟨[], [], [], []⟩

/-- Outcome of one request: a redirect, a rendered template, Flask's
`abort(404)` (from `get_or_404`), or an unhandled exception (HTTP 500). -/
inductive HResult where
  | redirect (endpoint : String)
  | render (template : String)
  | notFound
  | serverError
deriving Repr, DecidableEq

/-- Next autoincrement primary key for a table given a key projection. -/
def nextId {α : Type} (key : α → Nat) (l : List α) : Nat :=
  l.foldr (fun x m => max (key x) m) 0 + 1

/-! ### Password hashing model (werkzeug.security) -/

/-- The hash-method tag werkzeug prefixes to every stored credential. -/
def hashMethod : String := "pbkdf2:sha256:600000"

/-- `generate_password_hash(p)` with salt `salt`: stores
`method$salt$digest(p)`, with the digest idealised as `p` itself (an
injective stand-in for the PBKDF2 hex digest). -/
def hashPassword (salt pw : String) : String :=
  ⟨hashMethod.data ++ '$' :: salt.data ++ '$' :: pw.data⟩

/-- Split a character list on a separator character (how werkzeug parses
`method$salt$digest` back out of the stored credential). -/
def splitOnChar (c : Char) : List Char → List (List Char)
  | [] => [[]]
  | x :: xs =>
    if x = c then [] :: splitOnChar c xs
    else
      match splitOnChar c xs with
      | [] => [[x]]
      | y :: ys => (x :: y) :: ys

/-- `check_password_hash(stored, candidate)`: parse `method$salt$digest` from
the stored credential, re-derive the candidate's digest with that salt, and
compare. -/
def checkPasswordHash (stored candidate : String) : Bool :=
  match splitOnChar '$' stored.data with
  | [m, _salt, digest] => m == hashMethod.data && digest == candidate.data
  | _ => false

/-! ### Request handlers -/

/-- `@login_required` — redirects to the login view when no session user. -/
def loginRequired (cu : Option User) (h : User → DB × HResult) (db : DB) :
    DB × HResult :=
  match cu with
  | none => (db, .redirect "login")
  | some u => h u

/-- `index` — app.py lines 77-80: `Package.query.join(Destination)
.filter(Destination.is_active == True).all()`. -/
def listActivePackages (db : DB) : List Package :=
  db.packages.filter fun p =>
    db.destinations.any fun d => d.id == p.dest_id && d.is_active

/-- POST `/login` — app.py lines 82-90.  Looks up the first account with the
given username; on a successful hash check redirects by role, otherwise
flashes "Invalid Credentials" and re-renders the form. -/
def loginPost (db : DB) (username password : String) : DB × HResult :=
  match db.users.find? (fun u => u.username == username) with
  | some u =>
    if checkPasswordHash u.password password then
      (db, .redirect (if u.role == "admin" then "admin_dashboard" else "index"))
    else
      (db, .render "login.html")
  | none => (db, .render "login.html")

/-- POST `/register` — app.py lines 92-100: hash the password, insert a new
user with default role `customer`.  The `unique=True` constraint on
`username` makes the insert of a duplicate raise `IntegrityError` at commit
(an unhandled 500). -/
def registerPost (db : DB) (salt username password : String) : DB × HResult :=
  if db.users.any (fun u => u.username == username) then
    (db, .serverError)
  else
    ({ db with
        users := db.users ++
          [⟨nextId User.id db.users, username, hashPassword salt password,
            "customer"⟩] },
     .redirect "login")

/-- POST `/admin/add-destination` — app.py lines 117-125.  Note: the source
guards this route with `@login_required` only; the handler body never reads
`current_user.role`. -/
def add_destination (cu : Option User) (db : DB)
    (name location description best_season : String) : DB × HResult :=
  loginRequired cu
    (fun _u =>
      ({ db with
          destinations := db.destinations ++
            [⟨nextId Destination.id db.destinations, name, location,
              description, best_season, true⟩] },
       .redirect "admin_dashboard"))
    db

/-- POST `/admin/add-package` — app.py lines 127-142.  The form's `price`,
`capacity` and `dest_id` fields are fed to Python `float()` / `int()`:
`none` models a missing or non-numeric field, on which the conversion raises
`ValueError` (unhandled, HTTP 500) before anything is inserted.  No
positivity check appears anywhere in the handler.  The upload branch (lines
132-136) only picks the stored `image_file` name, passed here as `filename`.
Like `add_destination`, the route has `@login_required` and no role check. -/
def add_package (cu : Option User) (db : DB) (name duration : String)
    (price? : Option ℚ) (capacity? : Option Int) (dest_id? : Option Nat)
    (filename : String) : DB × HResult :=
  loginRequired cu
    (fun _u =>
      match price?, capacity?, dest_id? with
      | some price, some capacity, some dest_id =>
        ({ db with
            packages := db.packages ++
              [⟨nextId Package.id db.packages, name, duration, price,
                capacity, filename, dest_id⟩] },
         .redirect "admin_dashboard")
      | _, _, _ => (db, .serverError))
    db

/-- POST `/book/<pkg_id>` — app.py lines 144-153.
`Package.query.get_or_404(pkg_id)` aborts with 404 when the package does not
exist; `int(request.form.get('travelers', 1))` defaults an absent field to 1
(`travelers?` is the submitted integer, already through `int()`);
`total_price = pkg.price * num` is computed once, at creation. -/
def book_package (cu : Option User) (db : DB) (pkg_id : Nat)
    (travelers? : Option Int) (now : Nat) : DB × HResult :=
  loginRequired cu
    (fun u =>
      match db.packages.find? (fun p => p.id == pkg_id) with
      | none => (db, .notFound)
      | some pkg =>
        let num : Int := travelers?.getD 1
        ({ db with
            bookings := db.bookings ++
              [⟨nextId Booking.id db.bookings, u.id, pkg_id, num,
                pkg.price * (num : ℚ), "Pending", now⟩] },
         .redirect "my_bookings"))
    db

/-- GET `/admin/confirm/<id>` — app.py lines 161-167.
`Booking.query.get(id)` returns `None` when the id is absent, and the very
next line `booking.status = 'Confirmed'` then raises `AttributeError`
(unhandled, HTTP 500).  When the booking exists, its status is set to
`Confirmed` and committed.  `@login_required` only; no role check. -/
def confirm_booking (cu : Option User) (db : DB) (id : Nat) : DB × HResult :=
  loginRequired cu
    (fun _u =>
      match db.bookings.find? (fun b => b.id == id) with
      | none => (db, .serverError)
      | some _ =>
        ({ db with
            bookings := db.bookings.map fun b =>
              if b.id == id then { b with status := "Confirmed" } else b },
         .redirect "admin_dashboard"))
    db

/-! ### Admin-dashboard aggregates (app.py lines 111-113) -/

/-- SQL `SUM(...)` through `.scalar()`: `NULL` (i.e. `none`) on an empty row
set, otherwise the sum. -/
def sqlSumScalar (l : List ℚ) : Option ℚ :=
  if l.isEmpty then none else some l.sum

/-- app.py line 111:
`db.session.query(func.sum(Booking.total_price)).filter_by(status='Confirmed').scalar() or 0`. -/
def totalConfirmedRevenue (db : DB) : ℚ :=
  (sqlSumScalar
    ((db.bookings.filter (fun b => b.status == "Confirmed")).map
      Booking.total_price)).getD 0

/-- Number of rows of the `Destination ⋈ Package ⋈ Booking` inner join that
fall in destination `d`'s group — what `count(Booking.id)` counts for `d` on
app.py line 112. -/
def destBookingCount (db : DB) (d : Destination) : Nat :=
  ((db.packages.filter (fun p => p.dest_id == d.id)).map
    (fun p => (db.bookings.filter (fun b => b.package_id == p.id)).length)).sum

/-- First row of `ORDER BY count DESC` over a candidate list: an element with
maximal measure, earliest on ties (SQL leaves the tie-break arbitrary; the
claims only use maximality). -/
def argmaxFold {α : Type} (m : α → Nat) : List α → Option α
  | [] => none
  | x :: xs =>
    match argmaxFold m xs with
    | none => some x
    | some y => if m x < m y then some y else some x

/-- app.py line 112: the `group_by(Destination.id).order_by(count desc)
.first()` row.  The inner join keeps exactly the destinations with at least
one booked package row. -/
def popularRow (db : DB) : Option Destination :=
  argmaxFold (destBookingCount db)
    (db.destinations.filter (fun d => 0 < destBookingCount db d))

/-- app.py line 113: `popular[0] if popular else "No Bookings"`. -/
def mostPopularDestination (db : DB) : String :=
  match popularRow db with
  | some d => d.name
  | none => "No Bookings"

/-- A later modification of one package's price (no such route exists in the
source; this models an arbitrary future price change to state that stored
booking totals do not depend on it). -/
def setPackagePrice (db : DB) (pkg_id : Nat) (newPrice : ℚ) : DB :=
  { db with
      packages := db.packages.map fun p =>
        if p.id == pkg_id then { p with price := newPrice } else p }

/-! ### Helper lemmas: credential parsing -/

theorem splitOnChar_of_not_mem {c : Char} {a : List Char} (h : c ∉ a) :
    splitOnChar c a = [a] := by
  induction a with
  | nil => rfl
  | cons x xs ih =>
    rw [List.mem_cons, not_or] at h
    rw [splitOnChar, if_neg (fun hxc => h.1 hxc.symm), ih h.2]

theorem splitOnChar_sep {c : Char} {a : List Char} (r : List Char)
    (h : c ∉ a) :
    splitOnChar c (a ++ c :: r) = a :: splitOnChar c r := by
  induction a with
  | nil => rw [List.nil_append, splitOnChar, if_pos rfl]
  | cons x xs ih =>
    rw [List.mem_cons, not_or] at h
    rw [List.cons_append, splitOnChar, if_neg (fun hxc => h.1 hxc.symm),
      ih h.2]

theorem hashMethod_no_sep : '$' ∉ hashMethod.data := by decide

/-- Verification succeeds exactly on the original password. -/
theorem checkPasswordHash_iff (salt p q : String)
    (hs : '$' ∉ salt.data) (hp : '$' ∉ p.data) :
    checkPasswordHash (hashPassword salt p) q = true ↔ q = p := by
  have hsplit :
      splitOnChar '$' (hashPassword salt p).data =
        [hashMethod.data, salt.data, p.data] := by
    show splitOnChar '$'
        (hashMethod.data ++ ('$' :: salt.data) ++ ('$' :: p.data)) = _
    rw [List.append_assoc, List.cons_append,
      splitOnChar_sep _ hashMethod_no_sep, splitOnChar_sep _ hs,
      splitOnChar_of_not_mem hp]
  rw [checkPasswordHash, hsplit]
  show (hashMethod.data == hashMethod.data && p.data == q.data) = true ↔ q = p
  simp only [beq_self_eq_true, Bool.true_and, beq_iff_eq]
  exact ⟨fun h => (String.ext_iff.mpr h).symm, fun h => String.ext_iff.mp h.symm⟩

/-- The stored credential is never the plaintext password (it carries the
method tag and salt in front of the digest). -/
theorem hashPassword_ne (salt p : String) : hashPassword salt p ≠ p := by
  intro h
  have hlen : (hashPassword salt p).data.length = p.data.length :=
    congrArg (fun s => s.data.length) h
  have : (hashMethod.data ++ ('$' :: salt.data) ++ ('$' :: p.data)).length
      = p.data.length := hlen
  simp only [List.length_append, List.length_cons] at this
  omega

/-! ### Helper lemmas: primary-key lookup -/

theorem find?_key_eq_some {α : Type} (key : α → Nat) {l : List α}
    (hnd : (l.map key).Nodup) {a : α} (ha : a ∈ l) {i : Nat}
    (hk : key a = i) :
    l.find? (fun x => key x == i) = some a := by
  induction l with
  | nil => cases ha
  | cons b t ih =>
    rw [List.map_cons, List.nodup_cons] at hnd
    rcases List.mem_cons.mp ha with rfl | hat
    · exact List.find?_cons_of_pos t (by simp [hk])
    · have hbi : ¬((fun x => key x == i) b = true) := by
        simp only [beq_iff_eq]
        intro hbe
        exact hnd.1 (hbe ▸ hk ▸ List.mem_map_of_mem key hat)
      rw [List.find?_cons_of_neg t hbi, ih hnd.2 hat]

theorem find?_append_of_nomatch {α : Type} {p : α → Bool} {l₁ l₂ : List α}
    (h : ∀ x ∈ l₁, ¬p x = true) :
    (l₁ ++ l₂).find? p = l₂.find? p := by
  rw [List.find?_append, List.find?_eq_none.mpr h, Option.none_or]

/-! ### Helper lemmas: the argmax of the popularity query -/

theorem argmaxFold_eq_none {α : Type} (m : α → Nat) (l : List α) :
    argmaxFold m l = none ↔ l = [] := by
  cases l with
  | nil => simp [argmaxFold]
  | cons x xs =>
    simp only [argmaxFold]
    cases argmaxFold m xs with
    | none => simp
    | some y =>
      by_cases h : m x < m y <;> simp [h]

theorem argmaxFold_mem {α : Type} {m : α → Nat} {l : List α} :
    ∀ {a : α}, argmaxFold m l = some a → a ∈ l := by
  induction l with
  | nil => intro a h; cases h
  | cons x xs ih =>
    intro a h
    rw [argmaxFold] at h
    split at h
    · injection h with h
      subst h
      exact List.mem_cons_self x xs
    · next y hy =>
      split at h
      · injection h with h
        subst h
        exact List.mem_cons_of_mem x (ih hy)
      · injection h with h
        subst h
        exact List.mem_cons_self x xs

theorem argmaxFold_le {α : Type} {m : α → Nat} {l : List α} :
    ∀ {a : α}, argmaxFold m l = some a → ∀ x ∈ l, m x ≤ m a := by
  induction l with
  | nil => intro a h x hx; cases hx
  | cons x xs ih =>
    intro a h z hz
    rw [argmaxFold] at h
    split at h
    · next hnone =>
      injection h with h
      subst h
      rcases List.mem_cons.mp hz with rfl | hzt
      · exact Nat.le_refl _
      · rw [(argmaxFold_eq_none m xs).mp hnone] at hzt
        cases hzt
    · next y hy =>
      rcases List.mem_cons.mp hz with rfl | hzt
      · split at h
        · next hlt =>
          injection h with h
          subst h
          exact Nat.le_of_lt hlt
        · injection h with h
          subst h
          exact Nat.le_refl _
      · have hzy : m z ≤ m y := ih hy z hzt
        split at h
        · injection h with h
          subst h
          exact hzy
        · next hlt =>
          injection h with h
          subst h
          exact Nat.le_trans hzy (Nat.le_of_not_lt hlt)

/-! ### Concrete fixtures used by counterexamples and witnesses -/

def adminUser : User := ⟨1, "admin", hashPassword "s0" "admin123", "admin"⟩

def aliceUser : User := ⟨2, "alice", hashPassword "s1" "pw1", "customer"⟩

def dest1 : Destination := ⟨1, "Goa", "India", "Beaches", "Winter", true⟩

def pkg1 : Package := ⟨1, "Goa Getaway", "3 Days", 100, 10, "default.jpg", 1⟩

def booking1 : Booking := ⟨1, 2, 1, 2, 200, "Pending", 0⟩

def db1 : DB := ⟨[adminUser, aliceUser], [dest1], [pkg1], [booking1]⟩

/-! ### Claim theorems -/

/-- **C1** (code_bug evidence).  The claim says an authenticated non-admin
invoking `add_destination`, `add_package` or `confirm_booking` is redirected
to the public index with the store unchanged.  In the source these three
routes carry only `@login_required` and never read `current_user.role` (the
role guard exists solely on `admin_dashboard`, line 110), so an
authenticated customer performing them mutates the store and is redirected
to the admin dashboard.  This theorem evaluates all three handlers for the
customer account `aliceUser`. -/
theorem adminOps_lack_role_check :
    aliceUser.role ≠ "admin" ∧
    (add_destination (some aliceUser) db1 "Manali" "India" "Hills"
        "Summer").1.destinations.length = db1.destinations.length + 1 ∧
    (add_destination (some aliceUser) db1 "Manali" "India" "Hills"
        "Summer").2 = .redirect "admin_dashboard" ∧
    (add_package (some aliceUser) db1 "Trek" "2 Days" (some 50) (some 5)
        (some 1) "default.jpg").1.packages.length = db1.packages.length + 1 ∧
    (confirm_booking (some aliceUser) db1 1).1.bookings.map Booking.status =
      ["Confirmed"] :=
  ⟨by decide, rfl, rfl, rfl, rfl⟩

/-- **C2** (code_bug evidence).  The claim says confirming a nonexistent
booking id is a silent no-op that raises no error.  In the source
`Booking.query.get(id)` yields `None` and `booking.status = 'Confirmed'`
then raises `AttributeError` — an unhandled server error (here
`HResult.serverError`), though indeed no booking is changed.  `db1` has a
single booking with id 1, so id 999 is missing. -/
theorem confirm_missing_booking_errors :
    confirm_booking (some adminUser) db1 999 = (db1, .serverError) := rfl

/-- **C7** (counterexample).  The claim says a non-positive price or
capacity makes `add_package` fail with `InvalidInput` creating no Package.
The source has no positivity check at all: with price `-5` and capacity
`-3` (both of which Python's `float()`/`int()` parse fine) the package is
created and the request redirects to the dashboard. -/
theorem add_package_accepts_nonpositive :
    (add_package (some adminUser) db1 "Budget" "1 Day" (some (-5))
        (some (-3)) (some 1) "default.jpg").1.packages.map Package.price =
      [100, -5] ∧
    (add_package (some adminUser) db1 "Budget" "1 Day" (some (-5))
        (some (-3)) (some 1) "default.jpg").2 = .redirect "admin_dashboard" :=
  ⟨rfl, rfl⟩

/-- **C7** (amended).  `price`, `capacity` and `dest_id` go through Python
`float()`/`int()`: a missing or non-numeric field (modelled `none`) makes
the conversion raise an unhandled `ValueError` — the request errors out and
no Package is created, but not as a handled `InvalidInput` — while any
successfully parsed values, positive or not, create the Package with
exactly those values. -/
theorem add_package_parse_only_no_positivity (u : User) (db : DB)
    (name duration filename : String) :
    (∀ (capacity? : Option Int) (dest_id? : Option Nat),
      add_package (some u) db name duration none capacity? dest_id? filename =
        (db, .serverError)) ∧
    (∀ (price? : Option ℚ) (dest_id? : Option Nat),
      add_package (some u) db name duration price? none dest_id? filename =
        (db, .serverError)) ∧
    (∀ (price? : Option ℚ) (capacity? : Option Int),
      add_package (some u) db name duration price? capacity? none filename =
        (db, .serverError)) ∧
    (∀ (price : ℚ) (capacity : Int) (dest_id : Nat),
      add_package (some u) db name duration (some price) (some capacity)
          (some dest_id) filename =
        ({ db with
            packages := db.packages ++
              [⟨nextId Package.id db.packages, name, duration, price,
                capacity, filename, dest_id⟩] },
         .redirect "admin_dashboard")) := by
  refine ⟨?_, ?_, ?_, ?_⟩
  · intro c d
    cases c <;> cases d <;> rfl
  · intro p d
    cases p <;> cases d <;> rfl
  · intro p c
    cases p <;> cases c <;> rfl
  · intro p c d
    rfl

/-- **C3**.  For an authenticated account `u` and an existing package `p`,
booking with traveler count `n` appends exactly one new booking whose
`total_price` is `p.price * n` and whose status is `Pending`; the stored
total is unaffected by any later change to a package's price; and a package
id matching no package yields the `get_or_404` abort with no booking
created. -/
theorem book_package_correct (u : User) (db : DB) (pkg_id : Nat) (n : Int)
    (now : Nat) (p : Package)
    (hnd : (db.packages.map Package.id).Nodup)
    (hp : p ∈ db.packages) (hpk : p.id = pkg_id) :
    ((book_package (some u) db pkg_id (some n) now).1.bookings =
      db.bookings ++
        [⟨nextId Booking.id db.bookings, u.id, pkg_id, n, p.price * (n : ℚ),
          "Pending", now⟩]) ∧
    (∀ (pid : Nat) (newPrice : ℚ),
      (setPackagePrice (book_package (some u) db pkg_id (some n) now).1
          pid newPrice).bookings =
        (book_package (some u) db pkg_id (some n) now).1.bookings) ∧
    (∀ pid', (∀ q ∈ db.packages, q.id ≠ pid') →
      book_package (some u) db pid' (some n) now = (db, .notFound)) := by
  have hfind := find?_key_eq_some Package.id hnd hp hpk
  refine ⟨?_, ?_, ?_⟩
  · simp only [book_package, loginRequired, hfind, Option.getD_some]
  · intro pid newPrice
    rfl
  · intro pid' hnone
    have hnf : db.packages.find? (fun q => q.id == pid') = none :=
      List.find?_eq_none.mpr (fun q hq => by simp [hnone q hq])
    simp only [book_package, loginRequired, hnf]

/-- **C3** witness: `aliceUser` books package 1 of `db1` for 2 travelers. -/
theorem book_package_correct_witness :
    (book_package (some aliceUser) db1 1 (some 2) 7).1.bookings =
      db1.bookings ++ [⟨2, aliceUser.id, 1, 2, 200, "Pending", 7⟩] := by
  rw [(book_package_correct aliceUser db1 1 2 7 pkg1 (by decide) (by decide)
    rfl).1]
  norm_num [pkg1, nextId, db1, booking1]

/-- **C10**.  When the `travelers` form field is absent,
`request.form.get('travelers', 1)` defaults the count to 1 and the created
booking costs exactly the package price; when a value is submitted, any
integer — positive or not — is stored as-is with `total_price` scaled by
it. -/
theorem book_package_travelers_default (u : User) (db : DB) (pkg_id : Nat)
    (now : Nat) (p : Package)
    (hnd : (db.packages.map Package.id).Nodup)
    (hp : p ∈ db.packages) (hpk : p.id = pkg_id) :
    ((book_package (some u) db pkg_id none now).1.bookings =
      db.bookings ++
        [⟨nextId Booking.id db.bookings, u.id, pkg_id, 1, p.price,
          "Pending", now⟩]) ∧
    (∀ n : Int,
      (book_package (some u) db pkg_id (some n) now).1.bookings =
        db.bookings ++
          [⟨nextId Booking.id db.bookings, u.id, pkg_id, n,
            p.price * (n : ℚ), "Pending", now⟩]) := by
  have hfind := find?_key_eq_some Package.id hnd hp hpk
  constructor
  · simp only [book_package, loginRequired, hfind, Option.getD,
      Int.cast_one, mul_one]
  · intro n
    simp only [book_package, loginRequired, hfind, Option.getD_some]

/-- **C10** witness: booking package 1 of `db1` with no `travelers` field. -/
theorem book_package_travelers_default_witness :
    (book_package (some aliceUser) db1 1 none 9).1.bookings =
      db1.bookings ++ [⟨2, aliceUser.id, 1, 1, pkg1.price, "Pending", 9⟩] :=
  (book_package_travelers_default aliceUser db1 1 9 pkg1 (by decide)
    (by decide) rfl).1

/-- `x or 0` over the SQL `SUM(...) → NULL | value` scalar is exactly the
list sum (zero on the empty set). -/
theorem sqlSumScalar_getD (l : List ℚ) : (sqlSumScalar l).getD 0 = l.sum := by
  rw [sqlSumScalar]
  by_cases h : l.isEmpty
  · rw [if_pos h, List.isEmpty_iff.mp h]
    rfl
  · rw [if_neg h]
    rfl

/-- **C4**.  The dashboard revenue figure is the sum of `total_price` over
exactly the bookings with status `Confirmed`, and it is `0` — not SQL
`NULL` — when no booking is confirmed. -/
theorem totalConfirmedRevenue_correct (db : DB) :
    totalConfirmedRevenue db =
      ((db.bookings.filter (fun b => b.status == "Confirmed")).map
        Booking.total_price).sum ∧
    ((∀ b ∈ db.bookings, b.status ≠ "Confirmed") →
      totalConfirmedRevenue db = 0) := by
  constructor
  · rw [totalConfirmedRevenue, sqlSumScalar_getD]
  · intro h
    rw [totalConfirmedRevenue, sqlSumScalar_getD,
      List.filter_eq_nil_iff.mpr (fun b hb => by simp [h b hb])]
    rfl

/-- **C4** witness: `db1` has one booking, still `Pending`, so the revenue
is 0. -/
theorem totalConfirmedRevenue_correct_witness :
    totalConfirmedRevenue db1 = 0 :=
  (totalConfirmedRevenue_correct db1).2 (by decide)

/-- **C9**.  Confirming an existing booking stores it with status
`Confirmed` (all other fields intact), and the operation is idempotent:
running it a second time — in particular on an already-`Confirmed`
booking — produces the same state and response as running it once. -/
theorem confirm_booking_confirms_idempotent (u : User) (db : DB) (i : Nat)
    (b : Booking) (hb : b ∈ db.bookings) (hbi : b.id = i) :
    ({ b with status := "Confirmed" } ∈
      (confirm_booking (some u) db i).1.bookings) ∧
    confirm_booking (some u) (confirm_booking (some u) db i).1 i =
      confirm_booking (some u) db i := by
  obtain ⟨w, hw⟩ : ∃ w, db.bookings.find? (fun x => x.id == i) = some w := by
    cases hfind : db.bookings.find? (fun x => x.id == i) with
    | none => exact absurd (by simp [hbi]) (List.find?_eq_none.mp hfind b hb)
    | some w => exact ⟨w, rfl⟩
  constructor
  · simp only [confirm_booking, loginRequired, hw]
    have hfb := List.mem_map_of_mem
      (fun x : Booking =>
        if x.id == i then { x with status := "Confirmed" } else x) hb
    simpa [hbi] using hfb
  · have hcomp : ((fun x : Booking => x.id == i) ∘ fun x : Booking =>
        if x.id == i then { x with status := "Confirmed" } else x) =
        (fun x : Booking => x.id == i) := by
      funext x
      by_cases h : x.id == i <;> simp [Function.comp, h]
    have hfind2 : (db.bookings.map (fun x : Booking =>
        if x.id == i then { x with status := "Confirmed" } else x)).find?
          (fun x => x.id == i) =
        some (if w.id == i then { w with status := "Confirmed" } else w) := by
      rw [List.find?_map, hcomp, hw]
      rfl
    have hmm : (db.bookings.map (fun x : Booking =>
        if x.id == i then { x with status := "Confirmed" } else x)).map
          (fun x : Booking =>
            if x.id == i then { x with status := "Confirmed" } else x) =
        db.bookings.map (fun x : Booking =>
          if x.id == i then { x with status := "Confirmed" } else x) := by
      rw [List.map_map]
      exact List.map_congr_left
        (fun x _ => by by_cases h : x.id == i <;> simp [Function.comp, h])
    simp only [confirm_booking, loginRequired, hw, hfind2, hmm]

/-- **C9** witness: confirming booking 1 of `db1`, twice. -/
theorem confirm_booking_confirms_idempotent_witness :
    ({ booking1 with status := "Confirmed" } ∈
      (confirm_booking (some adminUser) db1 1).1.bookings) ∧
    confirm_booking (some adminUser)
        (confirm_booking (some adminUser) db1 1).1 1 =
      confirm_booking (some adminUser) db1 1 :=
  confirm_booking_confirms_idempotent adminUser db1 1 booking1 (by decide) rfl

/-- **C6**.  With destination primary keys unique, a package is listed on
the public index exactly when it is stored and its parent destination is
active; in particular every package of an inactive destination is
excluded. -/
theorem listActivePackages_correct (db : DB)
    (hnd : (db.destinations.map Destination.id).Nodup)
    (p : Package) (d : Destination) (hd : d ∈ db.destinations)
    (hid : d.id = p.dest_id) :
    p ∈ listActivePackages db ↔ p ∈ db.packages ∧ d.is_active = true := by
  rw [listActivePackages, List.mem_filter]
  constructor
  · rintro ⟨hp, hany⟩
    refine ⟨hp, ?_⟩
    obtain ⟨d', hd', hcond⟩ := List.any_eq_true.mp hany
    rw [Bool.and_eq_true, beq_iff_eq] at hcond
    have hdd : d' = d :=
      List.inj_on_of_nodup_map hnd hd' hd (by rw [hcond.1, hid])
    rw [← hdd]
    exact hcond.2
  · rintro ⟨hp, hact⟩
    exact ⟨hp, List.any_eq_true.mpr ⟨d, hd, by simp [hid.symm, hact]⟩⟩

/-- **C6** witness: `pkg1`'s destination `dest1` is active, so `pkg1` is on
the index of `db1`. -/
theorem listActivePackages_correct_witness :
    pkg1 ∈ listActivePackages db1 :=
  (listActivePackages_correct db1 (by decide) pkg1 dest1 (by decide)
    rfl).mpr ⟨by decide, rfl⟩

/-- **C8**.  Registering a fresh username `u` with password `p` stores a
credential different from `p`, and logging in as `u` afterwards succeeds
(redirecting by the default `customer` role to the index) exactly on the
original password: any other string re-renders the login form with the
invalid-credentials flash.  The `'$' ∉ …` hypotheses say the salt and
password avoid werkzeug's field separator, an artefact of idealising the
digest (real digests are hex and never contain `'$'`). -/
theorem register_login_correct (db : DB) (salt u p : String)
    (hs : '$' ∉ salt.data) (hp : '$' ∉ p.data)
    (hdup : ∀ x ∈ db.users, x.username ≠ u) :
    (∃ nu ∈ (registerPost db salt u p).1.users,
      nu.username = u ∧ nu.password ≠ p) ∧
    ((loginPost (registerPost db salt u p).1 u p).2 = .redirect "index") ∧
    (∀ q, q ≠ p →
      (loginPost (registerPost db salt u p).1 u q).2 =
        .render "login.html") := by
  have hany : db.users.any (fun x => x.username == u) = false :=
    List.any_eq_false.mpr (fun x hx => by simp [hdup x hx])
  have hreg : (registerPost db salt u p).1.users =
      db.users ++ [⟨nextId User.id db.users, u, hashPassword salt p,
        "customer"⟩] := by
    simp [registerPost, hany]
  have hfind : (db.users ++ [(⟨nextId User.id db.users, u,
      hashPassword salt p, "customer"⟩ : User)]).find?
        (fun x => x.username == u) =
      some ⟨nextId User.id db.users, u, hashPassword salt p, "customer"⟩ := by
    rw [find?_append_of_nomatch (fun x hx => by simp [hdup x hx])]
    exact List.find?_cons_of_pos _ (by simp)
  refine ⟨?_, ?_, ?_⟩
  · refine ⟨⟨nextId User.id db.users, u, hashPassword salt p, "customer"⟩,
      ?_, rfl, hashPassword_ne salt p⟩
    rw [hreg]
    exact List.mem_append_right _ (List.mem_cons_self _ _)
  · simp only [loginPost, hreg, hfind]
    rw [if_pos ((checkPasswordHash_iff salt p p hs hp).mpr rfl)]
    rfl
  · intro q hq
    have hc : checkPasswordHash (hashPassword salt p) q = false :=
      Bool.eq_false_iff.mpr
        (fun hc => hq ((checkPasswordHash_iff salt p q hs hp).mp hc))
    simp only [loginPost, hreg, hfind]
    rw [if_neg (by simp [hc])]

/-- **C8** witness: register "carol"/"hunter2" on the empty store and log
back in with the correct password. -/
theorem register_login_correct_witness :
    (loginPost (registerPost emptyDB "s9" "carol" "hunter2").1 "carol"
        "hunter2").2 = .redirect "index" :=
  (register_login_correct emptyDB "s9" "carol" "hunter2" (by decide)
    (by decide) (fun x hx => absurd hx (List.not_mem_nil x))).2.1

/-- **C5**.  Under referential integrity (every booking references a stored
package whose destination is stored — the schema's foreign keys), the
dashboard's popularity figure is the sentinel "No Bookings" exactly on an
empty booking table, and otherwise the name of a stored destination whose
booking count (through the package→destination join) is maximal among all
destinations. -/
theorem mostPopularDestination_correct (db : DB)
    (hint : ∀ b ∈ db.bookings, ∃ p ∈ db.packages, p.id = b.package_id ∧
      ∃ d ∈ db.destinations, d.id = p.dest_id) :
    (db.bookings = [] → mostPopularDestination db = "No Bookings") ∧
    (db.bookings ≠ [] → ∃ d ∈ db.destinations,
      mostPopularDestination db = d.name ∧
      ∀ d' ∈ db.destinations,
        destBookingCount db d' ≤ destBookingCount db d) := by
  constructor
  · intro hemp
    have hzero : ∀ d, destBookingCount db d = 0 := by
      intro d
      rw [destBookingCount, hemp]
      refine List.sum_eq_zero (fun x hx => ?_)
      obtain ⟨p', _, hp'⟩ := List.mem_map.mp hx
      exact hp' ▸ rfl
    rw [mostPopularDestination, popularRow,
      List.filter_eq_nil_iff.mpr (fun d _ => by simp [hzero d])]
    rfl
  · intro hne
    obtain ⟨b, hb⟩ := List.exists_mem_of_ne_nil db.bookings hne
    obtain ⟨p, hpmem, hpid, d, hdmem, hdid⟩ := hint b hb
    have hcount : 0 < destBookingCount db d := by
      rw [destBookingCount]
      have hpf : p ∈ db.packages.filter (fun p' => p'.dest_id == d.id) :=
        List.mem_filter.mpr ⟨hpmem, by simp [hdid]⟩
      have hbf : b ∈ db.bookings.filter (fun b' => b'.package_id == p.id) :=
        List.mem_filter.mpr ⟨hb, by simp [hpid]⟩
      have hlen : 0 <
          (db.bookings.filter (fun b' => b'.package_id == p.id)).length :=
        List.length_pos.mpr (List.ne_nil_of_mem hbf)
      have hmm : (db.bookings.filter
            (fun b' => b'.package_id == p.id)).length ∈
          (db.packages.filter (fun p' => p'.dest_id == d.id)).map
            (fun p' =>
              (db.bookings.filter (fun b' => b'.package_id == p'.id)).length) :=
        List.mem_map_of_mem _ hpf
      exact Nat.lt_of_lt_of_le hlen
        (List.single_le_sum (fun x _ => Nat.zero_le x) _ hmm)
    have hdc : d ∈ db.destinations.filter
        (fun d' => 0 < destBookingCount db d') :=
      List.mem_filter.mpr ⟨hdmem, by simp [hcount]⟩
    cases hargs : argmaxFold (destBookingCount db)
        (db.destinations.filter (fun d' => 0 < destBookingCount db d')) with
    | none =>
      rw [(argmaxFold_eq_none _ _).mp hargs] at hdc
      cases hdc
    | some dmax =>
      refine ⟨dmax, (List.mem_filter.mp (argmaxFold_mem hargs)).1, ?_, ?_⟩
      · rw [mostPopularDestination, popularRow, hargs]
      · intro d' hd'
        by_cases h0 : 0 < destBookingCount db d'
        · exact argmaxFold_le hargs d'
            (List.mem_filter.mpr ⟨hd', by simp [h0]⟩)
        · rw [Nat.eq_zero_of_not_pos h0]
          exact Nat.zero_le _

def destA : Destination := ⟨1, "Dest A", "North", "", "", true⟩

def destB : Destination := ⟨2, "Dest B", "South", "", "", true⟩

def pkgA : Package := ⟨1, "Trip A", "2 Days", 100, 10, "default.jpg", 1⟩

def pkgB : Package := ⟨2, "Trip B", "3 Days", 150, 10, "default.jpg", 2⟩

/-- The spec's popularity example: 3 bookings for Dest A, 1 for Dest B. -/
def db5 : DB := ⟨[adminUser], [destA, destB], [pkgA, pkgB],
  [⟨1, 1, 1, 1, 100, "Pending", 0⟩, ⟨2, 1, 1, 1, 100, "Pending", 1⟩,
   ⟨3, 1, 1, 1, 100, "Pending", 2⟩, ⟨4, 1, 2, 1, 150, "Pending", 3⟩]⟩

/-- **C5** witness: on `db5` (bookings {Dest A: 3, Dest B: 1}) a maximal
destination is reported. -/
theorem mostPopularDestination_correct_witness :
    db5.bookings ≠ [] ∧ ∃ d ∈ db5.destinations,
      mostPopularDestination db5 = d.name ∧
      ∀ d' ∈ db5.destinations,
        destBookingCount db5 d' ≤ destBookingCount db5 d :=
  ⟨by decide, (mostPopularDestination_correct db5 (by decide)).2 (by decide)⟩
